import Mathlib

/-!
Verification of the `feature` feature-flag library (github.com/nussjustin/feature).

The definitions below are a shallow embedding of the Go source:

* `Decision`, `If`, `Strategy`, `chainEnabled`, `chainStrategies`,
  `setStrategyStored`, `flagEnabled` embed the decision-resolution engine of
  `feature.go` (the variant using `NoDecision`, lines 817-1287 of the combined
  source; the older variant using `Default` and a per-flag default decision,
  lines 295-816, is embedded as `flagEnabledWithDefault`).
* `Outcome`, `Err`, `PanicVal`, `runBranch`, `Switch`, `Experiment` embed the
  dual-path executor (`run`, `Switch`, `Experiment` of `feature.go`).
  Go functions of type `func(context.Context) (T, error)` are embedded as
  `Ctx → Outcome T`, where an `Outcome` either returns a `(T, error)` pair or
  panics with a recovered value.  Effects that Go makes observable through the
  `Tracer` hooks (a branch function running to completion, a caught panic, a
  traced decision) are modelled as explicit event logs returned next to the
  results; the hooks of a user-configured `Tracer` themselves carry no return
  value relevant to the claims and are not modelled.
* `Value`, `FlagValue`, `sortedMap`, `FlagSet`, `FlagSet.Context`,
  `FlagSet.value`, `FlagSet.add`, `boolFn` embed the context-scoped value
  override variant of the package (src/unnamed/part_002, second half).

The Go `context.Context` is opaque to the decision engine, so it is embedded
as an arbitrary type parameter `Ctx`.  For the value-override variant the only
part of the context the code reads is the values map stored under the
per-`FlagSet` key, so a context is embedded as `VCtx := Option valuesMap`
(the value stored under this set's key, if any).
-/

namespace Feature

/-- Tri-state decision of a `Strategy` (feature.go lines 827-842).
`noDecision` is the `NoDecision` constant; the older variant calls the same
state `Default`. -/
inductive Decision where
  | noDecision
  | disabled
  | enabled
deriving DecidableEq, Repr

/-- Embeds `If` (feature.go lines 844-850): `Enabled` when the condition is
true, `Disabled` otherwise. -/
def If (cond : Bool) : Decision :=
  if cond then Decision.enabled else Decision.disabled

/-- A `Strategy` (feature.go lines 1213-1219): given a context and a flag
(identified by its name) it returns a `Decision`.  The Go interface value is
embedded as a function; a `nil` interface is `Option.none` at use sites. -/
def Strategy (Ctx : Type) : Type :=
  Ctx → String → Decision

/-- Embeds the loop of `chainStrategy.Enabled` (feature.go lines 1221-1230):
walk the strategies in order and return the first result that is not
`NoDecision`; return `NoDecision` if the list is exhausted. -/
def chainEnabled {Ctx : Type} (c : List (Strategy Ctx)) (ctx : Ctx) (name : String) : Decision :=
  match c with
  | [] => Decision.noDecision
  | s :: rest =>
    let d := s ctx name
    if d ≠ Decision.noDecision then d else chainEnabled rest ctx name

/-- Embeds `chainStrategies` (feature.go lines 1232-1246): drop `nil` entries;
if nothing remains return `nil`, otherwise the chain strategy over the
remaining entries. -/
def chainStrategies {Ctx : Type} (strategies : List (Option (Strategy Ctx))) :
    Option (Strategy Ctx) :=
  let chain := strategies.filterMap id
  if chain.isEmpty then none
  else some (fun ctx name => chainEnabled chain ctx name)

/-- Embeds the strategy value stored by `Set.SetStrategy` (feature.go lines
894-904): with extra arguments the chain of all arguments is built first; a
`nil` result stores `nil`, otherwise the strategy itself is stored. -/
def setStrategyStored {Ctx : Type} (strategy : Option (Strategy Ctx))
    (others : List (Option (Strategy Ctx))) : Option (Strategy Ctx) :=
  if 0 < others.length then chainStrategies (strategy :: others) else strategy

/-- Embeds `Flag.Enabled` (feature.go lines 1191-1201).  The first component
is the returned boolean; the second is the list of decisions reported to the
tracer's `Decision` hook by `f.trace` (exactly one per call). -/
def flagEnabled {Ctx : Type} (strat : Option (Strategy Ctx)) (ctx : Ctx) (name : String) :
    Bool × List Decision :=
  match strat with
  | some s =>
    let d := s ctx name
    if d ≠ Decision.noDecision then (decide (d = Decision.enabled), [d])
    else (false, [Decision.disabled])
  | none => (false, [Decision.disabled])

/-- The per-flag default decision of the older variant (feature.go lines
340-347): the declared constants are `DefaultDisabled` and `DefaultEnabled`. -/
inductive DefaultDecision where
  | defaultDisabled
  | defaultEnabled
deriving DecidableEq, Repr

/-- Embeds the conversion `Decision(f.defaultDecision)` (feature.go line 742). -/
def DefaultDecision.toDecision : DefaultDecision → Decision
  | DefaultDecision.defaultDisabled => Decision.disabled
  | DefaultDecision.defaultEnabled => Decision.enabled

/-- Embeds `Flag.Enabled` of the older variant (feature.go lines 734-746),
which falls back to the flag's configured default decision when the set has no
strategy or the strategy returns `Default` (the `noDecision` state).  The
second component is the traced decision, as in `flagEnabled`. -/
def flagEnabledWithDefault {Ctx : Type} (strat : Option (Strategy Ctx)) (dd : DefaultDecision)
    (ctx : Ctx) (name : String) : Bool × List Decision :=
  match strat with
  | some s =>
    let d := s ctx name
    if d ≠ Decision.noDecision then (decide (d = Decision.enabled), [d])
    else (decide (dd.toDecision = Decision.enabled), [dd.toDecision])
  | none => (decide (dd.toDecision = Decision.enabled), [dd.toDecision])

/-- The verdict of a set's (possibly absent) strategy: an absent strategy is
treated as `NoDecision`, exactly as `Flag.Enabled` skips the strategy step
when `f.set.strategy.Load()` is `nil`. -/
def strategyDecision {Ctx : Type} (strat : Option (Strategy Ctx)) (ctx : Ctx) (name : String) :
    Decision :=
  match strat with
  | none => Decision.noDecision
  | some s => s ctx name

/-- Specification-side helper: the first entry of a decision list that is not
`NoDecision`, or `NoDecision` when there is none. -/
def firstNonNoDecision : List Decision → Decision
  | [] => Decision.noDecision
  | d :: ds => if d = Decision.noDecision then firstNonNoDecision ds else d

mutual

/-- A Go value recovered from a panic (the `any` stored in
`PanicError.Recovered`): either a value that is itself an `error`, or any
other value (identified by a string rendering). -/
inductive PanicVal where
  | errVal (e : Err)
  | nonErr (s : String)

/-- A Go `error` value as far as this package distinguishes them: an ordinary
error (identified by its message) or a `*PanicError` (feature.go lines
1018-1038) carrying the recovered value. -/
inductive Err where
  | base (s : String)
  | panicError (recovered : PanicVal)

end

/-- Embeds `PanicError.Unwrap` (feature.go lines 1031-1038): returns the
recovered value itself when it is an error, `nil` otherwise. -/
def PanicError.Unwrap (recovered : PanicVal) : Option Err :=
  match recovered with
  | PanicVal.errVal e => some e
  | PanicVal.nonErr _ => none

/-- The behaviour of one call to a Go function of type
`func(context.Context) (T, error)`: either it returns a `(T, error)` pair, or
it panics with some value. -/
inductive Outcome (T : Type) where
  | ret (t : T) (err : Option Err)
  | panics (v : PanicVal)

/-- An observable event of the dual-path executor: a panic caught by `run`
(reported to the `CasePanicked` hook), or a branch function having run to
completion under decision `d` with the given result and error (reported to
the completion callback of the `Case` hook). -/
inductive Event (T : Type) where
  | panicked (d : Decision) (v : PanicVal)
  | branchRun (d : Decision) (result : T) (err : Option Err)

/-- Embeds `run` (feature.go lines 1133-1158): call `f`; if it panics,
recover the value `v` and replace the error by `&PanicError{Recovered: v}`
(the result keeping its zero value, embedded as `default`).  The event list
records the caught panic and the completion of the branch. -/
def runBranch {Ctx T : Type} [Inhabited T] (d : Decision) (f : Ctx → Outcome T) (ctx : Ctx) :
    (T × Option Err) × List (Event T) :=
  match f ctx with
  | Outcome.ret t e => ((t, e), [Event.branchRun d t e])
  | Outcome.panics v =>
    ((default, some (Err.panicError v)),
      [Event.panicked d v, Event.branchRun d default (some (Err.panicError v))])

/-- Embeds `Switch` (feature.go lines 1108-1131): resolve the flag once,
pick `ifEnabled` or `ifDisabled`, and run only that function through `run`.
Returns the `(result, error)` pair, the traced decisions, and the branch
events. -/
def Switch {Ctx T : Type} [Inhabited T] (strat : Option (Strategy Ctx)) (name : String)
    (ctx : Ctx) (ifEnabled ifDisabled : Ctx → Outcome T) :
    (T × Option Err) × List Decision × List (Event T) :=
  let ed := flagEnabled strat ctx name
  let fn := if ed.1 then ifEnabled else ifDisabled
  let re := runBranch (If ed.1) fn ctx
  (re.1, ed.2, re.2)

/-- The outputs of one `Experiment` call: the returned `(result, err)` pair,
the `success` flag passed to the tracer's `Experiment` completion hook,
whether `equals` was invoked (made explicit from Go's short-circuiting
`&&`), the traced decisions, and the branch events. -/
structure ExperimentResult (T : Type) where
  result : T
  err : Option Err
  success : Bool
  equalsCalled : Bool
  decisions : List Decision
  events : List (Event T)

/-- Embeds `Experiment` (feature.go lines 1052-1105): resolve the flag once,
run both functions through `run` (the two goroutines write to disjoint
variables and are joined by `wg.Wait()`, so the fork-join is embedded as
evaluating both), select the experimental pair when enabled and the control
pair otherwise, and compute
`ok := controlErr == nil && experimentErr == nil && equals(experimentT, controlT)`
with Go's short-circuiting made explicit so that the invocation of `equals`
is itself observable. -/
def Experiment {Ctx T : Type} [Inhabited T] (strat : Option (Strategy Ctx)) (name : String)
    (ctx : Ctx) (experimental control : Ctx → Outcome T) (equals : T → T → Bool) :
    ExperimentResult T :=
  let ed := flagEnabled strat ctx name
  let re := runBranch Decision.enabled experimental ctx
  let rc := runBranch Decision.disabled control ctx
  let selected := if ed.1 then re.1 else rc.1
  let oc : Bool × Bool :=
    if rc.1.2.isNone then
      if re.1.2.isNone then (equals re.1.1 rc.1.1, true)
      else (false, false)
    else (false, false)
  { result := selected.1, err := selected.2, success := oc.1, equalsCalled := oc.2,
    decisions := ed.2, events := re.2 ++ rc.2 }

/-- Number of branch-completion events in an event list. -/
def countBranchRuns {T : Type} (l : List (Event T)) : Nat :=
  l.countP (fun e => match e with
    | Event.branchRun _ _ _ => true
    | _ => false)

/-- The chain loop computes the first non-`NoDecision` verdict of the
pointwise decisions of its members. -/
theorem chainEnabled_eq_firstNonNoDecision {Ctx : Type} (c : List (Strategy Ctx)) (ctx : Ctx)
    (name : String) :
    chainEnabled c ctx name = firstNonNoDecision (c.map (fun s => s ctx name)) := by
  induction c with
  | nil => rfl
  | cons s rest ih =>
    simp only [chainEnabled, firstNonNoDecision, List.map_cons, ih]
    by_cases h : s ctx name = Decision.noDecision <;> simp [h]

/-- C4: For every flag and context, `Flag.Enabled` resolves its boolean
result in this order: the registry's strategy is consulted first and its
non-`NoDecision` verdict is final; if the strategy is absent or returns
`NoDecision`, the flag's configured default decision is used (older variant,
feature.go lines 734-746); if all of these are `NoDecision` — in the current
variant, which has no default-decision step (feature.go lines 1191-1201) —
the final result is `Disabled`, i.e. `Enabled` returns `false`. -/
theorem flag_enabled_resolution_order {Ctx : Type} (strat : Option (Strategy Ctx))
    (dd : DefaultDecision) (ctx : Ctx) (name : String) :
    (flagEnabledWithDefault strat dd ctx name).1 =
      (if strategyDecision strat ctx name = Decision.noDecision
        then decide (dd.toDecision = Decision.enabled)
        else decide (strategyDecision strat ctx name = Decision.enabled))
    ∧ (flagEnabled strat ctx name).1 = decide (strategyDecision strat ctx name = Decision.enabled) := by
  cases strat with
  | none => simp [flagEnabledWithDefault, flagEnabled, strategyDecision]
  | some s =>
    by_cases h : s ctx name = Decision.noDecision <;>
      simp [flagEnabledWithDefault, flagEnabled, strategyDecision, h]

/-- C3: For every list of strategies given to `SetStrategy` and every
(context, flag) input, the stored strategy evaluates the non-nil strategies
in the order given and returns the first result that is not `NoDecision`;
if every remaining strategy returns `NoDecision` (or the chain is empty after
skipping nil entries) the result is `NoDecision`.  Moreover no strategy after
the first one that decides is ever consulted: the chain's verdict is the
decider's verdict, unchanged under arbitrary replacement of everything after
the decider. -/
theorem set_strategy_chain_first_decision {Ctx : Type} (strategy : Option (Strategy Ctx))
    (others : List (Option (Strategy Ctx))) (ctx : Ctx) (name : String) :
    strategyDecision (setStrategyStored strategy others) ctx name =
      firstNonNoDecision (((strategy :: others).filterMap id).map (fun s => s ctx name))
    ∧ (∀ pre (s : Strategy Ctx) post post',
        (∀ t ∈ pre, t ctx name = Decision.noDecision) →
        s ctx name ≠ Decision.noDecision →
        chainEnabled (pre ++ s :: post) ctx name = s ctx name ∧
        chainEnabled (pre ++ s :: post) ctx name = chainEnabled (pre ++ s :: post') ctx name) := by
  constructor
  · rw [setStrategyStored]
    by_cases ho : 0 < others.length
    · simp only [ho, if_true]
      rw [chainStrategies]
      by_cases hc : ((strategy :: others).filterMap id).isEmpty
      · simp only [hc, if_true]
        rw [List.isEmpty_iff] at hc
        simp [strategyDecision, hc, firstNonNoDecision]
      · simp only [hc, if_false]
        simp [strategyDecision, chainEnabled_eq_firstNonNoDecision]
    · simp only [ho, if_false]
      have hothers : others = [] := by
        cases others with
        | nil => rfl
        | cons a l => simp at ho
      subst hothers
      cases strategy with
      | none => simp [strategyDecision, firstNonNoDecision]
      | some s =>
        simp only [strategyDecision, List.filterMap, id]
        by_cases h : s ctx name = Decision.noDecision <;>
          simp [firstNonNoDecision, h]
  · intro pre s post post' hpre hs
    have key : ∀ (post : List (Strategy Ctx)),
        chainEnabled (pre ++ s :: post) ctx name = s ctx name := by
      intro post
      induction pre with
      | nil => simp [chainEnabled, hs]
      | cons t rest ih =>
        have ht : t ctx name = Decision.noDecision := hpre t (by simp)
        have hrest : ∀ u ∈ rest, u ctx name = Decision.noDecision := by
          intro u hu; exact hpre u (by simp [hu])
        simp only [List.cons_append, chainEnabled, ht]
        simpa using ih hrest
    exact ⟨key post, by rw [key post, key post']⟩

/-- C10: calling `SetStrategy` with only nil strategies stores no strategy at
all — `chainStrategies` of an all-nil list returns nil — so afterwards every
flag behaves exactly as if no strategy had ever been configured: the current
variant's `Flag.Enabled` behaves as with no strategy, and the older variant
falls back to the flag's default decision. -/
theorem set_strategy_all_nil_resets {Ctx : Type} (strategy : Option (Strategy Ctx))
    (others : List (Option (Strategy Ctx))) (dd : DefaultDecision)
    (h1 : strategy = none) (h2 : ∀ o ∈ others, o = none) :
    chainStrategies (strategy :: others) = none
    ∧ setStrategyStored strategy others = none
    ∧ (∀ ctx name, flagEnabled (setStrategyStored strategy others) ctx name =
        flagEnabled none ctx name)
    ∧ (∀ ctx name, (flagEnabledWithDefault (setStrategyStored strategy others) dd ctx name).1 =
        decide (dd.toDecision = Decision.enabled)) := by
  have hfm : (strategy :: others).filterMap id = [] := by
    rw [List.filterMap_eq_nil_iff]
    intro o ho
    rcases List.mem_cons.mp ho with h | h
    · simp [h, h1]
    · simp [h2 o h]
  have hchain : chainStrategies (strategy :: others) = none := by
    simp [chainStrategies, hfm]
  have hstored : setStrategyStored strategy others = none := by
    rw [setStrategyStored]
    by_cases ho : 0 < others.length
    · simp [ho, hchain]
    · simp [ho, h1]
  refine ⟨hchain, hstored, ?_, ?_⟩
  · intro ctx name; rw [hstored]
  · intro ctx name; rw [hstored]; rfl

/-- Three concrete strategies over a trivial context type, used to evaluate
the chain claims at a concrete input: the first undecided, the second
enabling, the third disabling. -/
def sampleNoDec : Strategy Unit := fun _ _ => Decision.noDecision

/-- A concrete strategy that always enables. -/
def sampleEnable : Strategy Unit := fun _ _ => Decision.enabled

/-- A concrete strategy that always disables. -/
def sampleDisable : Strategy Unit := fun _ _ => Decision.disabled

/-- A concrete branch function returning `(1, nil)`. -/
def sampleOkOne : Unit → Outcome Nat := fun _ => Outcome.ret 1 none

/-- A concrete branch function returning `(2, nil)`. -/
def sampleOkTwo : Unit → Outcome Nat := fun _ => Outcome.ret 2 none

/-- A concrete branch function returning `(2, someError)`. -/
def sampleErrTwo : Unit → Outcome Nat := fun _ => Outcome.ret 2 (some (Err.base "failed"))

/-- A concrete branch function panicking with a non-error value. -/
def samplePanic : Unit → Outcome Nat := fun _ => Outcome.panics (PanicVal.nonErr "boom")

/-- Equality of naturals as a comparison function (the `Equals` helper). -/
def sampleEqNat : Nat → Nat → Bool := fun a b => decide (a = b)

/-- Witness for C3 at a concrete chain: with the first strategy undecided and
the second enabling, the chain decides `Enabled`, and its verdict does not
change when the third strategy is removed. -/
theorem set_strategy_chain_first_decision_witness :
    chainEnabled [sampleNoDec, sampleEnable, sampleDisable] () "x" = Decision.enabled
    ∧ chainEnabled [sampleNoDec, sampleEnable, sampleDisable] () "x" =
        chainEnabled [sampleNoDec, sampleEnable] () "x" := by
  have h := (set_strategy_chain_first_decision (some sampleNoDec) [] () "x").2
    [sampleNoDec] sampleEnable [sampleDisable] []
    (by intro t ht; simp only [List.mem_singleton] at ht; subst ht; rfl)
    (by simp [sampleEnable])
  refine ⟨?_, ?_⟩
  · simpa [sampleEnable] using h.1
  · simpa using h.2

/-- Witness for C10 at a concrete input: storing `(nil, nil, nil)` leaves the
set without a strategy, and a flag with default decision `DefaultEnabled`
then reports `true`. -/
theorem set_strategy_all_nil_resets_witness :
    setStrategyStored (none : Option (Strategy Unit)) [none, none] = none
    ∧ (flagEnabledWithDefault (setStrategyStored (none : Option (Strategy Unit)) [none, none])
        DefaultDecision.defaultEnabled () "x").1 = true := by
  have h := set_strategy_all_nil_resets (none : Option (Strategy Unit)) [none, none]
    DefaultDecision.defaultEnabled rfl (by intro o ho; simpa using ho)
  exact ⟨h.2.1, by simpa using h.2.2.2 () "x"⟩

/-- Every call to `Flag.Enabled` reports exactly one decision to the tracer. -/
theorem flagEnabled_decisions_length {Ctx : Type} (strat : Option (Strategy Ctx)) (ctx : Ctx)
    (name : String) : (flagEnabled strat ctx name).2.length = 1 := by
  cases strat with
  | none => rfl
  | some s =>
    simp only [flagEnabled]
    split <;> rfl

/-- Each call to `run` produces exactly one branch-completion event. -/
theorem countBranchRuns_runBranch {Ctx T : Type} [Inhabited T] (d : Decision)
    (f : Ctx → Outcome T) (ctx : Ctx) : countBranchRuns (runBranch d f ctx).2 = 1 := by
  rcases h : f ctx with t | v <;> simp [runBranch, h, countBranchRuns]

/-- The completion event of a branch, carrying exactly the pair `run`
returns for it, is always in the branch's event log. -/
theorem branchRun_mem_runBranch {Ctx T : Type} [Inhabited T] (d : Decision)
    (f : Ctx → Outcome T) (ctx : Ctx) :
    Event.branchRun d (runBranch d f ctx).1.1 (runBranch d f ctx).1.2 ∈ (runBranch d f ctx).2 := by
  rcases h : f ctx with t | v <;> simp [runBranch, h]

/-- C6: For every `Switch` call, the flag's `Enabled` is evaluated exactly
once (one traced decision), exactly one branch function is invoked
(`ifEnabled` when enabled, `ifDisabled` otherwise; exactly one
branch-completion event), the other function is never invoked (replacing it
changes nothing about the call), and `Switch` returns that single function's
`(result, error)` pair. -/
theorem switch_single_branch {Ctx T : Type} [Inhabited T] (strat : Option (Strategy Ctx))
    (name : String) (ctx : Ctx) (ifEnabled ifDisabled : Ctx → Outcome T) :
    (Switch strat name ctx ifEnabled ifDisabled).1 =
      (runBranch (If (flagEnabled strat ctx name).1)
        (if (flagEnabled strat ctx name).1 then ifEnabled else ifDisabled) ctx).1
    ∧ (Switch strat name ctx ifEnabled ifDisabled).2.1.length = 1
    ∧ countBranchRuns (Switch strat name ctx ifEnabled ifDisabled).2.2 = 1
    ∧ ((flagEnabled strat ctx name).1 = true →
        ∀ g, Switch strat name ctx ifEnabled g = Switch strat name ctx ifEnabled ifDisabled)
    ∧ ((flagEnabled strat ctx name).1 = false →
        ∀ g, Switch strat name ctx g ifDisabled = Switch strat name ctx ifEnabled ifDisabled) := by
  refine ⟨rfl, flagEnabled_decisions_length strat ctx name, ?_, ?_, ?_⟩
  · exact countBranchRuns_runBranch _ _ ctx
  · intro h g; simp [Switch, h]
  · intro h g; simp [Switch, h]

/-- Witness for C6 at a concrete input: with an enabling strategy, `Switch`
returns the enabled branch's pair, and replacing the disabled branch by a
panicking function changes nothing about the call. -/
theorem switch_single_branch_witness :
    (Switch (some sampleEnable) "x" () sampleOkTwo sampleOkOne).1 = (2, none)
    ∧ Switch (some sampleEnable) "x" () sampleOkTwo samplePanic =
        Switch (some sampleEnable) "x" () sampleOkTwo sampleOkOne := by
  have h := switch_single_branch (some sampleEnable) "x" () sampleOkTwo sampleOkOne
  refine ⟨?_, h.2.2.2.1 (by rfl) samplePanic⟩
  rw [h.1]
  rfl

/-- C1: For every flag, pair of branch functions, equals function and
context, `Experiment` returns the experimental branch's `(result, error)`
pair when the flag's single `Enabled` evaluation (exactly one traced
decision) is true and the control branch's pair otherwise, and the
completion events of both branches — regardless of which is selected and of
either branch's error — are in the call's event log. -/
theorem experiment_runs_both_and_selects {Ctx T : Type} [Inhabited T]
    (strat : Option (Strategy Ctx)) (name : String) (ctx : Ctx)
    (experimental control : Ctx → Outcome T) (equals : T → T → Bool) :
    ((Experiment strat name ctx experimental control equals).result,
        (Experiment strat name ctx experimental control equals).err) =
      (if (flagEnabled strat ctx name).1
        then (runBranch Decision.enabled experimental ctx).1
        else (runBranch Decision.disabled control ctx).1)
    ∧ (Experiment strat name ctx experimental control equals).decisions.length = 1
    ∧ Event.branchRun Decision.enabled (runBranch Decision.enabled experimental ctx).1.1
        (runBranch Decision.enabled experimental ctx).1.2
        ∈ (Experiment strat name ctx experimental control equals).events
    ∧ Event.branchRun Decision.disabled (runBranch Decision.disabled control ctx).1.1
        (runBranch Decision.disabled control ctx).1.2
        ∈ (Experiment strat name ctx experimental control equals).events := by
  refine ⟨?_, flagEnabled_decisions_length strat ctx name, ?_, ?_⟩
  · cases h : (flagEnabled strat ctx name).1 <;> simp [Experiment, h]
  · simp only [Experiment, List.mem_append]
    exact Or.inl (branchRun_mem_runBranch _ experimental ctx)
  · simp only [Experiment, List.mem_append]
    exact Or.inr (branchRun_mem_runBranch _ control ctx)

/-- C5: In every `Experiment` call the reported success flag equals
`controlErr == nil && experimentalErr == nil && equals(experimentalResult,
controlResult)`, and `equals` is invoked if and only if neither branch
returned an error (panic-derived errors included): when either branch
errored, the whole call is invariant under replacing the equals function, so
in particular `equals` is never called when the experimental branch errored
even though the control branch succeeded. -/
theorem experiment_success_flag {Ctx T : Type} [Inhabited T] (strat : Option (Strategy Ctx))
    (name : String) (ctx : Ctx) (experimental control : Ctx → Outcome T)
    (equals : T → T → Bool) :
    (Experiment strat name ctx experimental control equals).success =
      ((runBranch Decision.disabled control ctx).1.2.isNone &&
        (runBranch Decision.enabled experimental ctx).1.2.isNone &&
        equals (runBranch Decision.enabled experimental ctx).1.1
          (runBranch Decision.disabled control ctx).1.1)
    ∧ (Experiment strat name ctx experimental control equals).equalsCalled =
      ((runBranch Decision.disabled control ctx).1.2.isNone &&
        (runBranch Decision.enabled experimental ctx).1.2.isNone)
    ∧ (((runBranch Decision.disabled control ctx).1.2.isNone = false ∨
          (runBranch Decision.enabled experimental ctx).1.2.isNone = false) →
        ∀ eq2, Experiment strat name ctx experimental control eq2 =
          Experiment strat name ctx experimental control equals) := by
  refine ⟨?_, ?_, ?_⟩
  · cases hc : (runBranch Decision.disabled control ctx).1.2.isNone <;>
      cases he : (runBranch Decision.enabled experimental ctx).1.2.isNone <;>
      simp [Experiment, hc, he]
  · cases hc : (runBranch Decision.disabled control ctx).1.2.isNone <;>
      cases he : (runBranch Decision.enabled experimental ctx).1.2.isNone <;>
      simp [Experiment, hc, he]
  · intro h eq2
    cases hc : (runBranch Decision.disabled control ctx).1.2.isNone with
    | false => simp [Experiment, hc]
    | true =>
      cases he : (runBranch Decision.enabled experimental ctx).1.2.isNone with
      | false => simp [Experiment, hc, he]
      | true =>
        rcases h with h | h
        · rw [hc] at h; cases h
        · rw [he] at h; cases h

/-- Witness for C5 at a concrete input: with the experimental branch
erroring and the control branch succeeding, `equals` is not invoked and the
call does not depend on the equals function, and success is false. -/
theorem experiment_success_flag_witness :
    (Experiment (some sampleEnable) "x" () sampleErrTwo sampleOkOne sampleEqNat).equalsCalled =
        false
    ∧ (Experiment (some sampleEnable) "x" () sampleErrTwo sampleOkOne sampleEqNat).success = false
    ∧ Experiment (some sampleEnable) "x" () sampleErrTwo sampleOkOne (fun _ _ => true) =
        Experiment (some sampleEnable) "x" () sampleErrTwo sampleOkOne sampleEqNat := by
  have h := experiment_success_flag (some sampleEnable) "x" () sampleErrTwo sampleOkOne sampleEqNat
  refine ⟨?_, ?_, h.2.2 (Or.inr (by rfl)) (fun _ _ => true)⟩
  · rw [h.2.1]; rfl
  · rw [h.1]; rfl

/-- C2: For every branch function passed to `Switch` or `Experiment` that
panics with value `v`, the panic does not propagate (the call still returns
a pair) and does not affect the sibling branch (whose completion event, with
its own standalone values, is still produced); the invoking call instead
yields a non-nil error that is a `PanicError` whose `Recovered` field is
`v`, and `PanicError.Unwrap` returns `v` itself when `v` is an error and
`nil` otherwise. -/
theorem panic_recovered_as_error {Ctx T : Type} [Inhabited T] (strat : Option (Strategy Ctx))
    (name : String) (ctx : Ctx) (experimental control : Ctx → Outcome T)
    (equals : T → T → Bool) (d : Decision) (v : PanicVal)
    (hp : experimental ctx = Outcome.panics v) :
    (runBranch d experimental ctx).1.2 = some (Err.panicError v)
    ∧ ((flagEnabled strat ctx name).1 = true →
        (Switch strat name ctx experimental control).1.2 = some (Err.panicError v)
        ∧ (Experiment strat name ctx experimental control equals).err =
            some (Err.panicError v))
    ∧ Event.branchRun Decision.disabled (runBranch Decision.disabled control ctx).1.1
        (runBranch Decision.disabled control ctx).1.2
        ∈ (Experiment strat name ctx experimental control equals).events
    ∧ (∀ e, PanicError.Unwrap (PanicVal.errVal e) = some e)
    ∧ (∀ s, PanicError.Unwrap (PanicVal.nonErr s) = none) := by
  refine ⟨by simp [runBranch, hp], ?_, ?_, fun e => rfl, fun s => rfl⟩
  · intro h
    constructor
    · simp [Switch, h, runBranch, hp]
    · simp [Experiment, h, runBranch, hp]
  · simp only [Experiment, List.mem_append]
    exact Or.inr (branchRun_mem_runBranch _ control ctx)

/-- Witness for C2 at a concrete input: a branch panicking with the non-error
value `"boom"` makes the enabled `Switch` call return a `PanicError` holding
that value, and `Unwrap` of that value is `nil`. -/
theorem panic_recovered_as_error_witness :
    (Switch (some sampleEnable) "x" () samplePanic sampleOkOne).1.2 =
        some (Err.panicError (PanicVal.nonErr "boom"))
    ∧ PanicError.Unwrap (PanicVal.nonErr "boom") = none := by
  have h := panic_recovered_as_error (some sampleEnable) "x" () samplePanic sampleOkOne
    sampleEqNat Decision.enabled (PanicVal.nonErr "boom") rfl
  exact ⟨(h.2.1 (by rfl)).1, h.2.2.2.2 "boom"⟩

/-!
The context-scoped value-override variant (src/unnamed/part_002, second half,
lines 254-578): flags with typed default values, `Value` overrides attached
to a context, and the read path of the registered accessor closures.
-/

/-- The kind tag of a `Value` (part_002 lines 330-338). -/
inductive valueKind where
  | bool
  | int
  | float
  | string
  | uint
deriving DecidableEq, Repr

/-- The Go values the registration functions store in the `any`-typed
`Flag.Value` field: `bool`, `int`, `float64`, `string` or `uint`. -/
inductive FlagValue where
  | bool (b : Bool)
  | int (i : Int)
  | float (f : Float)
  | string (s : String)
  | uint (u : Nat)

/-- Embeds `Value` (part_002 lines 312-324): a named override carrying its
kind and one field per representable type, the unused fields keeping their
zero values. -/
structure Value where
  name : String
  kind : valueKind
  bool : Bool
  int : Int
  float : Float
  string : String
  uint : Nat

/-- Embeds `BoolValue` (part_002 lines 442-445). -/
def BoolValue (name : String) (value : Bool) : Value :=
  { name := name, kind := valueKind.bool, bool := value,
    int := 0, float := 0, string := "", uint := 0 }

/-- Embeds `IntValue` (part_002 lines 486-489). -/
def IntValue (name : String) (value : Int) : Value :=
  { name := name, kind := valueKind.int, bool := false,
    int := value, float := 0, string := "", uint := 0 }

/-- Embeds `StringValue` (part_002 lines 508-511). -/
def StringValue (name : String) (value : String) : Value :=
  { name := name, kind := valueKind.string, bool := false,
    int := 0, float := 0, string := value, uint := 0 }

/-- Embeds the `Flag` struct of part_002 (lines 267-283) in the fields the
claims depend on: the name and the typed default value.  The description,
labels and the registered accessor closure are not referenced by any claim. -/
structure GoFlag where
  Name : String
  Value : FlagValue

/-- Embeds `sortedMap` (part_006): a map plus its key list kept sorted. -/
structure sortedMap (T : Type) where
  m : String → Option T
  keys : List String

/-- The zero value of a `sortedMap`: an empty map, no keys. -/
def sortedMap.empty {T : Type} : sortedMap T :=
  { m := fun _ => none, keys := [] }

/-- Embeds `sortedMap.add` via `addMany` with a single entry (part_006): the
map and key slice are cloned (copy-on-write is implicit in the functional
embedding); the key is appended only when absent from the old map, and the
key slice is re-sorted when its length changed. -/
def sortedMap.add {T : Type} (s : sortedMap T) (key : String) (val : T) : sortedMap T :=
  let keys2 := if (s.m key).isSome then s.keys else s.keys ++ [key]
  let keys3 := if s.keys.length ≠ keys2.length
    then keys2.mergeSort (fun a b => decide (a ≤ b)) else keys2
  { m := fun k => if k = key then some val else s.m k, keys := keys3 }

/-- Embeds `FlagSet` of part_002 (lines 288-291) in the field the claims
depend on: the registered flags. -/
structure FlagSet where
  flags : sortedMap GoFlag

/-- Embeds `FlagSet.add` (part_002 lines 426-440): registering a name already
in the map panics with an `ErrDuplicateFlag`-wrapping error, otherwise the
flag is inserted.  The panic is embedded as `Except.error`. -/
def FlagSet.add (s : FlagSet) (name : String) (value : FlagValue) : Except String FlagSet :=
  if (s.flags.m name).isSome then Except.error ("duplicate flag: " ++ name)
  else Except.ok { flags := s.flags.add name { Name := name, Value := value } }

/-- A values map attached to a context under a set's private key
(`valuesMap`, part_002 line 326). -/
def valuesMap : Type := String → Option Value

/-- The part of a `context.Context` this variant reads: the values map stored
under the set's private key, if any. -/
def VCtx : Type := Option valuesMap

/-- The map `FlagSet.Context` starts from (part_002 lines 376-381): the map
found on the context — cloned — or a fresh empty one. -/
def ctxMap (c : VCtx) : valuesMap :=
  match c with
  | some m => m
  | none => fun _ => none

/-- Embeds the kind check of `FlagSet.Context` (part_002 lines 389-402): the
value's declared kind must match the dynamic type of the flag's default
value. -/
def kindMatches (k : valueKind) (v : FlagValue) : Bool :=
  match k, v with
  | valueKind.bool, FlagValue.bool _ => true
  | valueKind.int, FlagValue.int _ => true
  | valueKind.float, FlagValue.float _ => true
  | valueKind.string, FlagValue.string _ => true
  | valueKind.uint, FlagValue.uint _ => true
  | _, _ => false

/-- One iteration of the loop of `FlagSet.Context` (part_002 lines 383-409):
values for unregistered names are skipped, a kind mismatch for a registered
flag panics, a matching value is stored in the map. -/
def contextStep (flags : sortedMap GoFlag) (m : valuesMap) (v : Value) :
    Except String valuesMap :=
  match flags.m v.name with
  | none => Except.ok m
  | some f =>
    if kindMatches v.kind f.Value then
      Except.ok (fun k => if k = v.name then some v else m k)
    else
      Except.error ("invalid value for flag " ++ v.name)

/-- Embeds `FlagSet.Context` (part_002 lines 367-412): with no values the
context is returned unchanged; otherwise the existing map is cloned (or a
fresh one made), the values are folded in — panicking on a kind mismatch —
and the result is attached to a new context. -/
def FlagSet.Context (s : FlagSet) (ctx : VCtx) (values : List Value) : Except String VCtx :=
  if values.isEmpty then Except.ok ctx
  else
    match values.foldlM (contextStep s.flags) (ctxMap ctx) with
    | Except.ok m => Except.ok (some m)
    | Except.error e => Except.error e

/-- Embeds `FlagSet.value` (part_002 lines 414-424): look up the map under
the set's key, then the value by name, and require the kind to match. -/
def FlagSet.value (_s : FlagSet) (ctx : VCtx) (name : String) (kind : valueKind) :
    Option Value :=
  match ctx with
  | none => none
  | some m =>
    match m name with
    | none => none
    | some v => if v.kind = kind then some v else none

/-- Embeds the accessor closure returned by `FlagSet.Bool` (part_002 lines
450-457): the context override when present, the registered default
otherwise. -/
def FlagSet.boolFn (s : FlagSet) (name : String) (value : Bool) (ctx : VCtx) : Bool :=
  match s.value ctx name valueKind.bool with
  | some v => v.bool
  | none => value

/-- C7: Attaching overrides with `FlagSet.Context` returns a new context and
never mutates the input context or any override map reachable from it (the
map on the new context is a clone of the old one overlaid with the new
entries): for a registered boolean flag with default `false` and a context
carrying no override for it, the original context still reads `false`
afterwards while the returned context reads the overridden `true`, and every
other flag reads through the new context exactly what it reads through the
old one. -/
theorem context_override_isolation (s : FlagSet) (ctx1 : VCtx) (fname : String)
    (hreg : s.flags.m fname = some { Name := fname, Value := FlagValue.bool false })
    (hno : ctxMap ctx1 fname = none) :
    s.Context ctx1 [BoolValue fname true] =
      Except.ok (some (fun k => if k = fname then some (BoolValue fname true) else ctxMap ctx1 k))
    ∧ s.boolFn fname false ctx1 = false
    ∧ s.boolFn fname false
        (some (fun k => if k = fname then some (BoolValue fname true) else ctxMap ctx1 k)) = true
    ∧ (∀ g kd, g ≠ fname →
        s.value (some (fun k => if k = fname then some (BoolValue fname true) else ctxMap ctx1 k))
            g kd =
          s.value ctx1 g kd) := by
  refine ⟨?_, ?_, ?_, ?_⟩
  · simp [FlagSet.Context, contextStep, BoolValue, hreg, kindMatches]
  · cases ctx1 with
    | none => rfl
    | some m =>
      have hm : m fname = none := hno
      simp [FlagSet.boolFn, FlagSet.value, hm]
  · simp [FlagSet.boolFn, FlagSet.value, BoolValue]
  · intro g kd hg
    cases ctx1 with
    | none => simp [FlagSet.value, ctxMap, hg]
    | some m => simp [FlagSet.value, ctxMap, hg]

/-- A concrete set with one boolean flag named `"f"` whose default is
`false`. -/
def sampleSet : FlagSet :=
  { flags := sortedMap.empty.add "f" { Name := "f", Value := FlagValue.bool false } }

/-- Witness for C7 at a concrete input: on `sampleSet`, the base context
reads `false` for `"f"` while the context returned by attaching
`BoolValue("f", true)` reads `true`. -/
theorem context_override_isolation_witness :
    sampleSet.Context none [BoolValue "f" true] =
      Except.ok (some (fun k => if k = "f" then some (BoolValue "f" true) else none))
    ∧ sampleSet.boolFn "f" false none = false
    ∧ sampleSet.boolFn "f" false
        (some (fun k => if k = "f" then some (BoolValue "f" true) else none)) = true := by
  have h := context_override_isolation sampleSet none "f" rfl rfl
  exact ⟨h.1, h.2.1, h.2.2.1⟩

/-- C8: When attaching override values to a context, each value naming a
registered flag has its kind checked against the flag's declared kind, and a
mismatch panics at the point of attaching (`Context` itself fails; the read
path is a total function and cannot fail), while a value naming an
unregistered flag is silently ignored: no panic, and no entry is added to
the override map — the attached map is exactly the clone of the previous
one. -/
theorem context_kind_check (s : FlagSet) (ctx : VCtx) (v : Value) :
    (∀ f, s.flags.m v.name = some f → kindMatches v.kind f.Value = false →
        s.Context ctx [v] = Except.error ("invalid value for flag " ++ v.name))
    ∧ (s.flags.m v.name = none → s.Context ctx [v] = Except.ok (some (ctxMap ctx))) := by
  constructor
  · intro f hf hk
    simp [FlagSet.Context, contextStep, hf, hk]
  · intro hf
    simp [FlagSet.Context, contextStep, hf]

/-- Witness for C8 at a concrete input: on `sampleSet`, attaching an
int-kinded value for the boolean flag `"f"` panics, while attaching a value
for the unregistered name `"g"` succeeds and adds nothing. -/
theorem context_kind_check_witness :
    sampleSet.Context none [IntValue "f" 5] = Except.error ("invalid value for flag " ++ "f")
    ∧ sampleSet.Context none [BoolValue "g" true] = Except.ok (some (ctxMap none)) := by
  refine ⟨?_, ?_⟩
  · exact (context_kind_check sampleSet none (IntValue "f" 5)).1
      { Name := "f", Value := FlagValue.bool false } rfl rfl
  · exact (context_kind_check sampleSet none (BoolValue "g" true)).2 rfl

/-- C9: Registering a second flag with a name already registered on the same
registry panics and never silently overwrites: for a registry obtained by
registering `x` on a set not containing it, a second registration of `x`
fails (returning no new registry, so the state is unchanged), and the
registry still contains exactly one flag named `x` — the one registered
first. -/
theorem duplicate_registration_rejected (s0 s1 : FlagSet) (x : String) (v w : FlagValue)
    (habs : s0.flags.m x = none) (hkeys : x ∉ s0.flags.keys)
    (h1 : s0.add x v = Except.ok s1) :
    s1.add x w = Except.error ("duplicate flag: " ++ x)
    ∧ s1.flags.m x = some { Name := x, Value := v }
    ∧ s1.flags.keys.count x = 1 := by
  have hsome : (s0.flags.m x).isSome = false := by simp [habs]
  have h1' : s1 = { flags := s0.flags.add x { Name := x, Value := v } } := by
    rw [FlagSet.add, hsome] at h1
    simp only [Bool.false_eq_true, if_false, Except.ok.injEq] at h1
    exact h1.symm
  subst h1'
  have hmx : (sortedMap.add s0.flags x { Name := x, Value := v }).m x =
      some { Name := x, Value := v } := by
    simp [sortedMap.add]
  refine ⟨?_, hmx, ?_⟩
  · simp [FlagSet.add, hmx]
  · have hkeys2 : (sortedMap.add s0.flags x { Name := x, Value := v }).keys =
        (s0.flags.keys ++ [x]).mergeSort (fun a b => decide (a ≤ b)) := by
      simp [sortedMap.add, hsome]
    rw [hkeys2]
    rw [(List.mergeSort_perm (s0.flags.keys ++ [x]) (fun a b => decide (a ≤ b))).count_eq x]
    rw [List.count_append]
    simp [List.count_eq_zero_of_not_mem hkeys]

/-- Witness for C9 at a concrete input: after registering `"x"` on an empty
set, a second registration of `"x"` fails and the set holds exactly one flag
named `"x"`, the first one. -/
theorem duplicate_registration_rejected_witness :
    ({ flags := sortedMap.empty.add "x" { Name := "x", Value := FlagValue.bool true } } :
        FlagSet).add "x" (FlagValue.int 0) = Except.error ("duplicate flag: " ++ "x")
    ∧ ({ flags := sortedMap.empty.add "x" { Name := "x", Value := FlagValue.bool true } } :
        FlagSet).flags.keys.count "x" = 1 := by
  have h := duplicate_registration_rejected
    { flags := (sortedMap.empty : sortedMap GoFlag) }
    { flags := sortedMap.empty.add "x" { Name := "x", Value := FlagValue.bool true } }
    "x" (FlagValue.bool true) (FlagValue.int 0) rfl (by simp [sortedMap.empty]) rfl
  exact ⟨h.1, h.2.2⟩

end Feature
